import Mathlib

/-!
# Verification of the TFX Iterative Schema Lab wrapper

Shallow embedding of the repository's glue code:

* `src/src/schema_manager.py` — in-place schema edits (`customize_schema`
  and its four steps), modelled as pure functions on a `Schema` value.
  Edits that call `tfdv.get_feature` / `tfdv.set_domain` (which raise when
  the named feature is absent) return `Option Schema`.
* `src/src/metadata_tracker.py` — lineage queries against an ML-Metadata
  store, modelled as pure reads over a `Store` value holding artifact and
  event records; functions that the Python code guards with
  catch-log-return-None return `Option`.
* `src/src/data_pipeline.py` — the five-stage sequence, modelled over an
  environment of external stage calls (each an `Except`), together with a
  trace of the external calls issued and the inputs passed to each.
* `src/src/utils.py` — `validate_data_file` over an explicit file-system
  value, and `format_bytes` over exact rational arithmetic (the Python
  code divides by 1024.0, which is exact binary-float scaling for the
  integer byte counts in scope; formatting `:.1f` is correct rounding,
  ties to even, of that value).
* `src/main.py` — the entry point's control flow over the same
  environment plus a data-file-existence flag.
-/

namespace TFXLab

/-! ## Schema data model (tensorflow_metadata schema_pb2, the fields used) -/

/-- `schema_pb2.IntDomain` as used by `customize_age_domain`. -/
structure IntDomain where
  name : String
  min : Int
  max : Int
deriving DecidableEq

/-- The `domain_info` oneof of a schema feature (only the variants this
repository can produce or observe). -/
inductive DomainInfo where
  | intDomain (d : IntDomain)
  | stringDomain (value : List String)
deriving DecidableEq

/-- A schema feature: its name, optional domain, and the list of
environments the feature is excluded from. -/
structure Feature where
  name : String
  domain_info : Option DomainInfo
  not_in_environment : List String
deriving DecidableEq

/-- A schema: its repeated `feature` field and the repeated
`default_environment` field. -/
structure Schema where
  feature : List Feature
  default_environment : List String
deriving DecidableEq

/-- `tfdv.get_feature(schema, name)`: the first feature with the given
name; the Python call raises when none exists, modelled as `none`. -/
def get_feature (s : Schema) (n : String) : Option Feature :=
  s.feature.find? (fun ft => ft.name = n)

/-- Mutate the first feature with the given name in place (the Python
code mutates through the reference returned by `tfdv.get_feature`). -/
def updateFirstFeature (fs : List Feature) (n : String) (f : Feature → Feature) :
    List Feature :=
  match fs with
  | [] => []
  | x :: xs => if x.name = n then f x :: xs else x :: updateFirstFeature xs n f

/-- Overwrite a feature's `domain_info` (the assignment
`feature.int_domain.CopyFrom(domain)` performed inside `tfdv.set_domain`). -/
def setDomainInfo (d : DomainInfo) (ft : Feature) : Feature :=
  { ft with domain_info := some d }

/-- `tfdv.set_domain(schema, n, d)`: overwrite the `domain_info` of the
first feature named `n`; raises (here `none`) when the feature is absent. -/
def set_domain (s : Schema) (n : String) (d : DomainInfo) : Option Schema :=
  match s.feature.find? (fun ft => ft.name = n) with
  | none => none
  | some _ =>
      some { s with feature := updateFirstFeature s.feature n (setDomainInfo d) }

/-! ## schema_manager.py: SchemaManager -/

/-- `SchemaManager.customize_age_domain`: set the `age` feature's domain
to `IntDomain(name='age', min=min_age, max=max_age)`. -/
def customize_age_domain (s : Schema) (min_age max_age : Int) : Option Schema :=
  set_domain s "age" (DomainInfo.intDomain ⟨"age", min_age, max_age⟩)

/-- One iteration of `SchemaManager.add_environments`'s loop: append the
tag unless it is already present. -/
def addEnvStep (acc : List String) (env : String) : List String :=
  if env ∈ acc then acc else acc ++ [env]

/-- `SchemaManager.add_environments`: append each named environment to
`schema.default_environment` if absent. -/
def add_environments (s : Schema) (environments : List String) : Schema :=
  { s with default_environment := environments.foldl addEnvStep s.default_environment }

/-- The mutation `configure_serving_environment` applies to the `label`
feature: append `'SERVING'` to `not_in_environment` if absent. -/
def excludeServing (ft : Feature) : Feature :=
  if "SERVING" ∈ ft.not_in_environment then ft
  else { ft with not_in_environment := ft.not_in_environment ++ ["SERVING"] }

/-- `SchemaManager.configure_serving_environment`: fetch the `label`
feature (raising, here `none`, when absent) and exclude it from the
`SERVING` environment if not already excluded. -/
def configure_serving_environment (s : Schema) : Option Schema :=
  match s.feature.find? (fun ft => ft.name = "label") with
  | none => none
  | some _ => some { s with feature := updateFirstFeature s.feature "label" excludeServing }

/-- `SchemaManager.add_additional_validations`: probe the optional
`education` and `workclass` features, logging either way; the inner
`try/except` blocks swallow the lookup failures, so the function never
raises and never modifies the schema. Returns the (unchanged) schema and
the log lines emitted. -/
def add_additional_validations (s : Schema) : Schema × List String :=
  let log1 :=
    match s.feature.find? (fun ft => ft.name = "education") with
    | some _ => "Found education feature - could add domain restrictions"
    | none => "Education feature not found - skipping education domain"
  let log2 :=
    match s.feature.find? (fun ft => ft.name = "workclass") with
    | some _ => "Found workclass feature - could add domain restrictions"
    | none => "Workclass feature not found - skipping workclass domain"
  (s, [log1, log2, "Additional validations checked"])

/-- `SchemaManager.customize_schema`: the four edits in their fixed,
hardcoded order; a failure of an edit that raises propagates (the outer
`except` re-raises), modelled as `none`. -/
def customize_schema (s : Schema) : Option Schema := do
  let s1 ← customize_age_domain s 17 90
  let s2 := add_environments s1 ["TRAINING", "SERVING"]
  let s3 ← configure_serving_environment s2
  let s4 := (add_additional_validations s3).1
  return s4

/-! ## utils.py -/

/-- What the file system knows about one existing file: whether the
process may read it, and its size in bytes. -/
structure FileInfo where
  readable : Bool
  size : Nat

/-- A file system state: each path either maps to a file or is absent. -/
structure FileSystem where
  file : String → Option FileInfo

/-- `os.path.exists`. -/
def os_path_exists (fs : FileSystem) (p : String) : Bool :=
  (fs.file p).isSome

/-- `os.access(p, os.R_OK)`. -/
def os_access_read (fs : FileSystem) (p : String) : Bool :=
  match fs.file p with
  | some fi => fi.readable
  | none => false

/-- `os.path.getsize`; raises (here `none`) on a missing file. -/
def os_path_getsize (fs : FileSystem) (p : String) : Option Nat :=
  (fs.file p).map (fun fi => fi.size)

/-- `utils.validate_data_file`: exists, readable, non-empty; any failure
path (including an exception from `getsize`, caught by the `except`)
yields `false`. -/
def validate_data_file (fs : FileSystem) (filepath : String) : Bool :=
  if ¬ os_path_exists fs filepath then false
  else if ¬ os_access_read fs filepath then false
  else
    match os_path_getsize fs filepath with
    | none => false
    | some sz => if sz = 0 then false else true

/-- Round a rational to the nearest integer, ties to even — the rounding
Python's `format(v, '.1f')` applies to the exact value of the binary
float `v`. -/
def roundHalfEven (q : ℚ) : ℤ :=
  let f := ⌊q⌋
  let r := q - f
  if r < 1/2 then f
  else if 1/2 < r then f + 1
  else if Even f then f else f + 1

/-- Python's `f"{v:.1f}"` for the non-negative values arising in
`format_bytes`: the value rounded to one decimal place. -/
def formatFixed1 (q : ℚ) : String :=
  let t := roundHalfEven (q * 10)
  toString (t / 10) ++ "." ++ toString (t % 10)

/-- The loop of `utils.format_bytes`: try each unit in turn, dividing by
1024 between units; after the last unit the value is rendered in PB. -/
def format_bytes_loop (units : List String) (v : ℚ) : String :=
  match units with
  | [] => formatFixed1 v ++ " PB"
  | u :: us => if v < 1024 then formatFixed1 v ++ " " ++ u
               else format_bytes_loop us (v / 1024)

/-- `utils.format_bytes` on a non-negative byte count. -/
def format_bytes (bytes_value : ℕ) : String :=
  format_bytes_loop ["B", "KB", "MB", "GB", "TB"] (bytes_value : ℚ)

/-- The byte-count rendering as the specification words it: scale the
value once into the first unit of B, KB, MB, GB, TB under which it is
below 1024 (the value in unit number `k` is `n / 1024 ^ k`, below 1024
exactly when `n < 1024 ^ (k+1)`), render it with one decimal place
followed by that unit; values of 1024 TB or more render in PB. -/
def format_bytes_spec (bytes_value : ℕ) : String :=
  if bytes_value < 1024 then formatFixed1 (bytes_value : ℚ) ++ " " ++ "B"
  else if bytes_value < 1024 ^ 2 then
    formatFixed1 ((bytes_value : ℚ) / 1024) ++ " " ++ "KB"
  else if bytes_value < 1024 ^ 3 then
    formatFixed1 ((bytes_value : ℚ) / 1024 ^ 2) ++ " " ++ "MB"
  else if bytes_value < 1024 ^ 4 then
    formatFixed1 ((bytes_value : ℚ) / 1024 ^ 3) ++ " " ++ "GB"
  else if bytes_value < 1024 ^ 5 then
    formatFixed1 ((bytes_value : ℚ) / 1024 ^ 4) ++ " " ++ "TB"
  else formatFixed1 ((bytes_value : ℚ) / 1024 ^ 5) ++ " PB"

/-! ## metadata_tracker.py: MetadataTracker over an ML-Metadata store -/

/-- `metadata_store_pb2.Event.Type`: the full event-type enum of the
ML-Metadata proto (the Python code filters on `INPUT` and `OUTPUT`). -/
inductive EventType where
  | unknown
  | declared_output
  | declared_input
  | input
  | output
  | internal_input
  | internal_output
  | pending_output
deriving DecidableEq

/-- An ML-Metadata event: which artifact took part in which execution,
and in what role. -/
structure Event where
  artifact_id : Nat
  execution_id : Nat
  type : EventType
deriving DecidableEq

/-- An ML-Metadata artifact record (the fields this repository reads). -/
structure Artifact where
  id : Nat
  type_name : String
  uri : String
deriving DecidableEq

/-- The metadata store state the tracker queries (read-only here). -/
structure Store where
  artifacts : List Artifact
  events : List Event

/-- `store.get_artifacts_by_type`. -/
def get_artifacts_by_type (st : Store) (n : String) : List Artifact :=
  st.artifacts.filter (fun a => a.type_name = n)

/-- `store.get_events_by_artifact_ids([aid])`. -/
def get_events_by_artifact_ids (st : Store) (ids : List Nat) : List Event :=
  st.events.filter (fun e => e.artifact_id ∈ ids)

/-- `store.get_events_by_execution_ids([xid])`. -/
def get_events_by_execution_ids (st : Store) (ids : List Nat) : List Event :=
  st.events.filter (fun e => e.execution_id ∈ ids)

/-- The lineage record `track_artifact_lineage` assembles. -/
structure LineageInfo where
  artifact_id : Nat
  execution_id : Nat
  input_ids : List Nat
  output_ids : List Nat
deriving DecidableEq

/-- The `input_artifacts` comprehension of `track_artifact_lineage`: the
artifact ids of the execution's events whose type is `INPUT`. -/
def executionInputIds (st : Store) (execution_id : Nat) : List Nat :=
  ((get_events_by_execution_ids st [execution_id]).filter
    (fun e => e.type = EventType.input)).map (fun e => e.artifact_id)

/-- The `output_artifacts` comprehension of `track_artifact_lineage`: the
artifact ids of the execution's events whose type is `OUTPUT`. -/
def executionOutputIds (st : Store) (execution_id : Nat) : List Nat :=
  ((get_events_by_execution_ids st [execution_id]).filter
    (fun e => e.type = EventType.output)).map (fun e => e.artifact_id)

/-- `MetadataTracker.track_artifact_lineage`: events of the artifact; if
none, return `None`; else take the first event's execution id, fetch that
execution's events, and split their artifact ids by event type `INPUT`
versus `OUTPUT`. -/
def track_artifact_lineage (st : Store) (aid : Nat) : Option LineageInfo :=
  match get_events_by_artifact_ids st [aid] with
  | [] => none
  | first_event :: _ =>
      let execution_id := first_event.execution_id
      some ⟨aid, execution_id, executionInputIds st execution_id,
            executionOutputIds st execution_id⟩

/-- `MetadataTracker.get_example_anomalies_artifacts`. -/
def get_example_anomalies_artifacts (st : Store) : List Artifact :=
  get_artifacts_by_type st "ExampleAnomalies"

/-- `MetadataTracker.track_example_anomalies_lineage`: `None` when no
`ExampleAnomalies` artifact exists; otherwise the lineage of the first. -/
def track_example_anomalies_lineage (st : Store) : Option LineageInfo :=
  match get_example_anomalies_artifacts st with
  | [] => none
  | first_anomalies :: _ => track_artifact_lineage st first_anomalies.id

/-! ## data_pipeline.py: TFXPipeline over the external stage calls -/

/-- One external stage invocation issued through `context.run`, recorded
with the output artifacts of earlier stages passed to it as inputs. The
artifact type `α` stands for the opaque output handles
(`outputs['examples']`, `outputs['statistics']`, ...). -/
inductive StageCall (α : Type) where
  | exampleGen
  | statisticsGen (examples : α)
  | schemaGen (statistics : α)
  | curateSchema (schema : α)
  | exampleValidator (statistics : α) (schema : α)
deriving DecidableEq

/-- The input artifacts a recorded stage call received. -/
def StageCall.inputs {α : Type} : StageCall α → List α
  | .exampleGen => []
  | .statisticsGen examples => [examples]
  | .schemaGen statistics => [statistics]
  | .curateSchema schema => [schema]
  | .exampleValidator statistics schema => [statistics, schema]

/-- The behaviour of the external libraries during one run: what each
stage's external call returns, as a function of the inputs it is given
(`Except.error` models the call raising an exception). -/
structure PipelineEnv (ε α : Type) where
  exampleGen : Except ε α
  statisticsGen : α → Except ε α
  schemaGen : α → Except ε α
  curateSchema : α → Except ε α
  exampleValidator : α → α → Except ε α

/-- `TFXPipeline.run_example_gen`: issue the external call; the
`except`-log-`raise` wrapper re-raises the same exception. Returns the
result and the trace of external calls issued. -/
def run_example_gen {ε α : Type} (env : PipelineEnv ε α) :
    Except ε α × List (StageCall α) :=
  (env.exampleGen, [StageCall.exampleGen])

/-- `TFXPipeline.run_statistics_gen`: consumes
`example_gen.outputs['examples']`. -/
def run_statistics_gen {ε α : Type} (env : PipelineEnv ε α) (examples : α) :
    Except ε α × List (StageCall α) :=
  (env.statisticsGen examples, [StageCall.statisticsGen examples])

/-- `TFXPipeline.run_schema_gen`: consumes
`statistics_gen.outputs['statistics']`. -/
def run_schema_gen {ε α : Type} (env : PipelineEnv ε α) (statistics : α) :
    Except ε α × List (StageCall α) :=
  (env.schemaGen statistics, [StageCall.schemaGen statistics])

/-- `TFXPipeline.create_curated_schema`: consumes
`schema_gen.outputs['schema']` and yields the imported curated schema. -/
def create_curated_schema {ε α : Type} (env : PipelineEnv ε α) (schema : α) :
    Except ε α × List (StageCall α) :=
  (env.curateSchema schema, [StageCall.curateSchema schema])

/-- `TFXPipeline.run_example_validator`: consumes
`statistics_gen.outputs['statistics']` and
`user_schema_importer.outputs['schema']`. -/
def run_example_validator {ε α : Type} (env : PipelineEnv ε α)
    (statistics schema : α) : Except ε α × List (StageCall α) :=
  (env.exampleValidator statistics schema, [StageCall.exampleValidator statistics schema])

/-- `TFXPipeline.run_full_pipeline`: the five stages in fixed order, each
fed from the stored outputs of earlier stages; the first exception aborts
the sequence and is re-raised unchanged by the outer handler. The
returned list is the trace of external stage calls actually issued, in
order. -/
def run_full_pipeline {ε α : Type} (env : PipelineEnv ε α) :
    Except ε Unit × List (StageCall α) :=
  match run_example_gen env with
  | (.error e, t1) => (.error e, t1)
  | (.ok examples, t1) =>
    match run_statistics_gen env examples with
    | (.error e, t2) => (.error e, t1 ++ t2)
    | (.ok statistics, t2) =>
      match run_schema_gen env statistics with
      | (.error e, t3) => (.error e, t1 ++ t2 ++ t3)
      | (.ok schema, t3) =>
        match create_curated_schema env schema with
        | (.error e, t4) => (.error e, t1 ++ t2 ++ t3 ++ t4)
        | (.ok curated, t4) =>
          match run_example_validator env statistics curated with
          | (.error e, t5) => (.error e, t1 ++ t2 ++ t3 ++ t4 ++ t5)
          | (.ok _, t5) => (.ok (), t1 ++ t2 ++ t3 ++ t4 ++ t5)

/-! ## main.py -/

/-- The observable actions `main` performs, in order. -/
inductive MainAction (α : Type) where
  | setupLogging
  | createDirectories (dirs : List String)
  | warnDataMissing
  | initPipeline
  | stage (c : StageCall α)
  | displayResults
  | demonstrateTracking
deriving DecidableEq

/-- The environment `main` runs against: whether the fixed-path data file
exists, and the external stage behaviour used once the pipeline runs. -/
structure MainEnv (ε α : Type) where
  dataFileExists : Bool
  pipeline : PipelineEnv ε α

/-- `main.main`: set up logging, create the two directories, check for
`./data/census_data/adult.data`; if absent, warn and return normally.
Otherwise initialize and run the pipeline; an exception is logged and
re-raised. `display_results` and `demonstrate_metadata_tracking` catch
all exceptions themselves. Returns the result and the action trace. -/
def main {ε α : Type} (env : MainEnv ε α) :
    Except ε Unit × List (MainAction α) :=
  let pre := [MainAction.setupLogging,
              MainAction.createDirectories ["./pipeline/", "./data/census_data"]]
  if ¬ env.dataFileExists then
    (.ok (), pre ++ [MainAction.warnDataMissing])
  else
    match run_full_pipeline env.pipeline with
    | (.error e, t) => (.error e, pre ++ [MainAction.initPipeline] ++ t.map MainAction.stage)
    | (.ok (), t) =>
        (.ok (), pre ++ [MainAction.initPipeline] ++ t.map MainAction.stage
          ++ [MainAction.displayResults, MainAction.demonstrateTracking])

/-- The exit status of `python main.py`: `main` returning normally ends
the process with status 0; an unhandled exception ends it non-zero. -/
def processExitCode {ε α : Type} (env : MainEnv ε α) : Nat :=
  match (main env).1 with
  | .ok _ => 0
  | .error _ => 1

/-! ## Concrete instances used in witnesses and counterexamples -/

/-- A store whose execution 5 recorded an `OUTPUT` event for artifact 1
and a `DECLARED_OUTPUT` event for artifact 2. -/
def storeDeclaredOutput : Store :=
  ⟨[], [⟨1, 5, EventType.declared_output⟩, ⟨2, 5, EventType.output⟩]⟩

/-- A store whose execution 7 consumed artifact 10 and produced
artifact 11. -/
def storeOneExecution : Store :=
  ⟨[], [⟨10, 7, EventType.input⟩, ⟨11, 7, EventType.output⟩]⟩

/-- A stage environment in which every external call succeeds, producing
the distinct artifact handles 1, 2, 3, 4 and then 6. -/
def envAllOk : PipelineEnv Unit Nat :=
  ⟨.ok 1, fun x => .ok (x + 1), fun x => .ok (x + 1), fun x => .ok (x + 1),
   fun x y => .ok (x + y)⟩

/-- A stage environment in which `StatisticsGen` raises. -/
def envStatsFails : PipelineEnv String Nat :=
  ⟨.ok 1, fun _ => .error "StatisticsGen failed", fun x => .ok (x + 1),
   fun x => .ok (x + 1), fun x y => .ok (x + y)⟩

/-- A `main` environment in which the data file is absent. -/
def envNoDataFile : MainEnv Unit Nat := ⟨false, envAllOk⟩

/-! ## Theorems -/

/-- C9: `validate_data_file` returns `True` exactly when the file exists,
is readable, and has size greater than zero; in every other case it
returns `False` (the `except` clause turns any lookup failure into
`False`, so it never raises). -/
theorem validate_data_file_iff (fs : FileSystem) (p : String) :
    validate_data_file fs p = true ↔
      ∃ fi, fs.file p = some fi ∧ fi.readable = true ∧ 0 < fi.size := by
  cases h : fs.file p with
  | none =>
      simp [validate_data_file, os_path_exists, os_access_read, os_path_getsize, h]
  | some fi =>
      cases hr : fi.readable with
      | false =>
          simp [validate_data_file, os_path_exists, os_access_read,
            os_path_getsize, h, hr]
      | true =>
          simp [validate_data_file, os_path_exists, os_access_read,
            os_path_getsize, h, hr, Nat.pos_iff_ne_zero]

/-- C4: when the store holds no `ExampleAnomalies` artifact, or no event
references the first such artifact, `track_example_anomalies_lineage`
returns the empty result `none`; the function is total, so it never
raises (every store failure is caught and turned into this result). -/
theorem track_example_anomalies_lineage_empty (st : Store)
    (h : get_example_anomalies_artifacts st = [] ∨
      ∀ a l, get_example_anomalies_artifacts st = a :: l →
        get_events_by_artifact_ids st [a.id] = []) :
    track_example_anomalies_lineage st = none := by
  unfold track_example_anomalies_lineage
  cases ha : get_example_anomalies_artifacts st with
  | nil => rfl
  | cons a l =>
      rcases h with h | h
      · rw [ha] at h; cases h
      · have hev := h a l ha
        unfold track_artifact_lineage
        simp [hev]

/-- Witness for C4: the empty store yields the empty result. -/
theorem track_example_anomalies_lineage_empty_witness :
    track_example_anomalies_lineage ⟨[], []⟩ = none :=
  track_example_anomalies_lineage_empty ⟨[], []⟩ (Or.inl rfl)

/-- C7: `add_additional_validations` never changes the schema (so the
edit sequence continues unharmed), and when a probed optional feature
(`education` or `workclass`) is absent it logs the corresponding
skip message instead of raising. -/
theorem add_additional_validations_probe (s : Schema) :
    (add_additional_validations s).1 = s ∧
    (s.feature.find? (fun ft => ft.name = "education") = none →
      "Education feature not found - skipping education domain" ∈
        (add_additional_validations s).2) ∧
    (s.feature.find? (fun ft => ft.name = "workclass") = none →
      "Workclass feature not found - skipping workclass domain" ∈
        (add_additional_validations s).2) := by
  refine ⟨rfl, ?_, ?_⟩
  · intro h; simp [add_additional_validations, h]
  · intro h; simp [add_additional_validations, h]

/-- Witness for C7: a schema with no features lacks both probed fields;
the edit leaves it unchanged and logs both skip messages. -/
theorem add_additional_validations_probe_witness :
    (add_additional_validations ⟨[], []⟩).1 = (⟨[], []⟩ : Schema) ∧
    "Education feature not found - skipping education domain" ∈
      (add_additional_validations ⟨[], []⟩).2 ∧
    "Workclass feature not found - skipping workclass domain" ∈
      (add_additional_validations ⟨[], []⟩).2 :=
  ⟨(add_additional_validations_probe ⟨[], []⟩).1,
   (add_additional_validations_probe ⟨[], []⟩).2.1 rfl,
   (add_additional_validations_probe ⟨[], []⟩).2.2 rfl⟩

/-- Updating the first feature of a given name is the identity when that
feature is a fixed point of the mutation. -/
theorem updateFirstFeature_eq_self (fs : List Feature) (n : String)
    (f : Feature → Feature) (ft : Feature)
    (hfind : fs.find? (fun x => x.name = n) = some ft) (hfix : f ft = ft) :
    updateFirstFeature fs n f = fs := by
  induction fs with
  | nil => simp at hfind
  | cons x xs ih =>
      by_cases hx : x.name = n
      · rw [List.find?_cons_of_pos _ (by simp [hx])] at hfind
        have hx' : x = ft := by injection hfind
        subst hx'
        simp [updateFirstFeature, hx, hfix]
      · rw [List.find?_cons_of_neg _ (by simp [hx])] at hfind
        simp [updateFirstFeature, hx, ih hfind]

/-- C3: when the first `label` feature already lists `SERVING` in
`not_in_environment`, `configure_serving_environment` returns the schema
unchanged. -/
theorem configure_serving_environment_noop (s : Schema) (ft : Feature)
    (hfind : s.feature.find? (fun f => f.name = "label") = some ft)
    (hserv : "SERVING" ∈ ft.not_in_environment) :
    configure_serving_environment s = some s := by
  unfold configure_serving_environment
  rw [hfind, updateFirstFeature_eq_self s.feature "label" excludeServing ft hfind
    (by simp [excludeServing, hserv])]

/-- Witness for C3: a one-feature schema whose `label` feature already
excludes `SERVING` passes through unchanged. -/
theorem configure_serving_environment_noop_witness :
    configure_serving_environment ⟨[⟨"label", none, ["SERVING"]⟩], []⟩ =
      some ⟨[⟨"label", none, ["SERVING"]⟩], []⟩ :=
  configure_serving_environment_noop ⟨[⟨"label", none, ["SERVING"]⟩], []⟩
    ⟨"label", none, ["SERVING"]⟩ rfl (by decide)

/-- Counterexample for C1 as stated: in a store whose execution 5 also
recorded a `DECLARED_OUTPUT` event (artifact 1), the input/output id
lists computed for artifact 2 miss artifact 1, so their union does not
equal the artifact-id set of the execution's full event list. -/
theorem track_artifact_lineage_union_cex :
    track_artifact_lineage storeDeclaredOutput 2 = some ⟨2, 5, [], [2]⟩ ∧
    1 ∈ (get_events_by_execution_ids storeDeclaredOutput [5]).map
      (fun e => e.artifact_id) ∧
    ¬ (1 ∈ ([] : List Nat) ∨ 1 ∈ [2]) :=
  ⟨rfl, by decide, by decide⟩

/-- C1 (amended): for an artifact with a non-empty event list,
`track_artifact_lineage` takes the first event's execution id and splits
that execution's events by type; provided the execution's events are all
of type `INPUT` or `OUTPUT` and no artifact id occurs with both types,
the two id lists are disjoint and their union is exactly the artifact-id
set of the execution's full event list. -/
theorem track_artifact_lineage_partition (st : Store) (aid : Nat)
    (e0 : Event) (es : List Event)
    (h0 : get_events_by_artifact_ids st [aid] = e0 :: es)
    (hInOut : ∀ e ∈ get_events_by_execution_ids st [e0.execution_id],
        e.type = EventType.input ∨ e.type = EventType.output)
    (hNoBoth : ∀ e ∈ get_events_by_execution_ids st [e0.execution_id],
        ∀ e' ∈ get_events_by_execution_ids st [e0.execution_id],
        e.artifact_id = e'.artifact_id → e.type = e'.type) :
    track_artifact_lineage st aid =
      some ⟨aid, e0.execution_id, executionInputIds st e0.execution_id,
            executionOutputIds st e0.execution_id⟩ ∧
    (∀ a ∈ executionInputIds st e0.execution_id,
        a ∉ executionOutputIds st e0.execution_id) ∧
    (∀ a, (a ∈ executionInputIds st e0.execution_id ∨
           a ∈ executionOutputIds st e0.execution_id) ↔
        a ∈ (get_events_by_execution_ids st [e0.execution_id]).map
          (fun e => e.artifact_id)) := by
  refine ⟨?_, ?_, ?_⟩
  · unfold track_artifact_lineage
    rw [h0]
  · intro a ha hb
    simp only [executionInputIds, executionOutputIds, List.mem_map,
      List.mem_filter, decide_eq_true_eq] at ha hb
    obtain ⟨e, ⟨he, hti⟩, hae⟩ := ha
    obtain ⟨e', ⟨he', hto⟩, hae'⟩ := hb
    have heq := hNoBoth e he e' he' (by rw [hae, hae'])
    rw [hti, hto] at heq
    cases heq
  · intro a
    constructor
    · rintro (ha | ha) <;>
        (simp only [executionInputIds, executionOutputIds, List.mem_map,
          List.mem_filter, decide_eq_true_eq] at ha ⊢;
         obtain ⟨e, ⟨he, _⟩, hae⟩ := ha;
         exact ⟨e, he, hae⟩)
    · intro ha
      simp only [List.mem_map] at ha
      obtain ⟨e, he, hae⟩ := ha
      rcases hInOut e he with ht | ht
      · left
        simp only [executionInputIds, List.mem_map, List.mem_filter,
          decide_eq_true_eq]
        exact ⟨e, ⟨he, ht⟩, hae⟩
      · right
        simp only [executionOutputIds, List.mem_map, List.mem_filter,
          decide_eq_true_eq]
        exact ⟨e, ⟨he, ht⟩, hae⟩

/-- Witness for C1: a store whose execution 7 consumed artifact 10 and
produced artifact 11. -/
theorem track_artifact_lineage_partition_witness :
    track_artifact_lineage storeOneExecution 11 =
      some ⟨11, 7, executionInputIds storeOneExecution 7,
            executionOutputIds storeOneExecution 7⟩ ∧
    (∀ a ∈ executionInputIds storeOneExecution 7,
        a ∉ executionOutputIds storeOneExecution 7) ∧
    (∀ a, (a ∈ executionInputIds storeOneExecution 7 ∨
           a ∈ executionOutputIds storeOneExecution 7) ↔
        a ∈ (get_events_by_execution_ids storeOneExecution [7]).map
          (fun e => e.artifact_id)) :=
  track_artifact_lineage_partition storeOneExecution 11
    ⟨11, 7, EventType.output⟩ [] rfl (by decide) (by decide)

/-- C5: whichever of the five stages is the first whose external call
raises, `run_full_pipeline` issues exactly the calls up to and including
that stage (each once — no retry, no later stage, earlier calls left in
place — no rollback) and surfaces the same exception unchanged. -/
theorem run_full_pipeline_error_prop {ε α : Type} (env : PipelineEnv ε α) (e : ε) :
    (env.exampleGen = .error e →
      run_full_pipeline env = (.error e, [.exampleGen])) ∧
    (∀ a, env.exampleGen = .ok a → env.statisticsGen a = .error e →
      run_full_pipeline env = (.error e, [.exampleGen, .statisticsGen a])) ∧
    (∀ a b, env.exampleGen = .ok a → env.statisticsGen a = .ok b →
      env.schemaGen b = .error e →
      run_full_pipeline env =
        (.error e, [.exampleGen, .statisticsGen a, .schemaGen b])) ∧
    (∀ a b c, env.exampleGen = .ok a → env.statisticsGen a = .ok b →
      env.schemaGen b = .ok c → env.curateSchema c = .error e →
      run_full_pipeline env =
        (.error e, [.exampleGen, .statisticsGen a, .schemaGen b, .curateSchema c])) ∧
    (∀ a b c d, env.exampleGen = .ok a → env.statisticsGen a = .ok b →
      env.schemaGen b = .ok c → env.curateSchema c = .ok d →
      env.exampleValidator b d = .error e →
      run_full_pipeline env =
        (.error e, [.exampleGen, .statisticsGen a, .schemaGen b, .curateSchema c,
          .exampleValidator b d])) := by
  refine ⟨?_, ?_, ?_, ?_, ?_⟩ <;>
    · intros
      simp [run_full_pipeline, run_example_gen, run_statistics_gen,
        run_schema_gen, create_curated_schema, run_example_validator, *]

/-- Witness for C5: with `StatisticsGen` raising, the run aborts after
two calls and re-raises the same error. -/
theorem run_full_pipeline_error_prop_witness :
    run_full_pipeline envStatsFails =
      (.error "StatisticsGen failed", [.exampleGen, .statisticsGen 1]) :=
  (run_full_pipeline_error_prop envStatsFails "StatisticsGen failed").2.1 1 rfl rfl

/-- Counterexample for C6 as stated: in a fully successful concrete run,
the fifth stage (`ExampleValidator`) does not receive exactly the fourth
stage's output (artifact 4); it receives the statistics artifact 2 from
the second stage as well. -/
theorem run_full_pipeline_prior_input_cex :
    run_full_pipeline envAllOk =
      (.ok (), [.exampleGen, .statisticsGen 1, .schemaGen 2, .curateSchema 3,
        .exampleValidator 2 4]) ∧
    envAllOk.curateSchema 3 = .ok 4 ∧
    (StageCall.exampleValidator (2 : Nat) 4).inputs ≠ [4] :=
  ⟨rfl, rfl, by decide⟩

/-- C6 (amended): with every external call succeeding, the five stages
run exactly once each, in the fixed order, and each receives the declared
outputs recorded for it: `StatisticsGen` gets `ExampleGen`'s examples,
`SchemaGen` gets `StatisticsGen`'s statistics, schema curation gets
`SchemaGen`'s schema, and `ExampleValidator` gets `StatisticsGen`'s
statistics together with the curated import's schema. -/
theorem run_full_pipeline_order {ε α : Type} (env : PipelineEnv ε α)
    (a b c d v : α)
    (h1 : env.exampleGen = .ok a) (h2 : env.statisticsGen a = .ok b)
    (h3 : env.schemaGen b = .ok c) (h4 : env.curateSchema c = .ok d)
    (h5 : env.exampleValidator b d = .ok v) :
    run_full_pipeline env =
      (.ok (), [.exampleGen, .statisticsGen a, .schemaGen b, .curateSchema c,
        .exampleValidator b d]) := by
  simp only [run_full_pipeline, run_example_gen, run_statistics_gen,
    run_schema_gen, create_curated_schema, run_example_validator,
    h1, h2, h3, h4, h5]
  rfl

/-- Witness for C6 (amended): the all-success environment runs the five
stages in order on the handles 1, 2, 3, 4. -/
theorem run_full_pipeline_order_witness :
    run_full_pipeline envAllOk =
      (.ok (), [.exampleGen, .statisticsGen 1, .schemaGen 2, .curateSchema 3,
        .exampleValidator 2 4]) :=
  run_full_pipeline_order envAllOk 1 2 3 4 6 rfl rfl rfl rfl rfl

/-- C8: with the data file absent, `main` creates the directories, logs
the warning, and returns normally — the pipeline is never initialized and
no stage runs — so the process exits with status 0. -/
theorem main_data_file_missing {ε α : Type} (env : MainEnv ε α)
    (h : env.dataFileExists = false) :
    main env = (.ok (), [.setupLogging,
      .createDirectories ["./pipeline/", "./data/census_data"],
      .warnDataMissing]) ∧
    MainAction.initPipeline ∉ (main env).2 ∧
    (∀ c : StageCall α, MainAction.stage c ∉ (main env).2) ∧
    processExitCode env = 0 := by
  have hm : main env = (.ok (), [.setupLogging,
      .createDirectories ["./pipeline/", "./data/census_data"],
      .warnDataMissing]) := by
    simp [main, h]
  refine ⟨hm, ?_, ?_, ?_⟩
  · rw [hm]; simp
  · intro c; rw [hm]; simp
  · simp [processExitCode, hm]

/-- Witness for C8: a concrete environment with the data file absent. -/
theorem main_data_file_missing_witness :
    main envNoDataFile = (.ok (), [.setupLogging,
      .createDirectories ["./pipeline/", "./data/census_data"],
      .warnDataMissing]) ∧
    processExitCode envNoDataFile = 0 :=
  ⟨(main_data_file_missing envNoDataFile rfl).1,
   (main_data_file_missing envNoDataFile rfl).2.2.2⟩

/-- `setDomainInfo` does not change the feature's name. -/
theorem setDomainInfo_name (d : DomainInfo) (ft : Feature) :
    (setDomainInfo d ft).name = ft.name := rfl

/-- `excludeServing` does not change the feature's name. -/
theorem excludeServing_name (ft : Feature) :
    (excludeServing ft).name = ft.name := by
  unfold excludeServing; split <;> rfl

/-- `excludeServing` is idempotent on a feature. -/
theorem excludeServing_idem (ft : Feature) :
    excludeServing (excludeServing ft) = excludeServing ft := by
  by_cases h : "SERVING" ∈ ft.not_in_environment
  · simp [excludeServing, h]
  · simp [excludeServing, h]

/-- A name-preserving update leaves the list of feature names unchanged. -/
theorem updateFirstFeature_map_name (fs : List Feature) (n : String)
    (f : Feature → Feature) (hf : ∀ ft, (f ft).name = ft.name) :
    (updateFirstFeature fs n f).map (fun ft => ft.name) =
      fs.map (fun ft => ft.name) := by
  induction fs with
  | nil => rfl
  | cons x xs ih => by_cases hx : x.name = n <;> simp [updateFirstFeature, hx, hf, ih]

/-- Whether a feature of a given name exists depends only on the list of
feature names. -/
theorem find?_name_isSome_congr (fs gs : List Feature) (m : String)
    (h : fs.map (fun ft => ft.name) = gs.map (fun ft => ft.name)) :
    (fs.find? (fun ft => ft.name = m)).isSome =
      (gs.find? (fun ft => ft.name = m)).isSome := by
  induction fs generalizing gs with
  | nil =>
      cases gs with
      | nil => rfl
      | cons y ys => simp at h
  | cons x xs ih =>
      cases gs with
      | nil => simp at h
      | cons y ys =>
          simp only [List.map_cons, List.cons.injEq] at h
          obtain ⟨h1, h2⟩ := h
          by_cases hx : x.name = m
          · have hy : y.name = m := by rw [← h1]; exact hx
            rw [List.find?_cons_of_pos _ (by simp [hx]),
              List.find?_cons_of_pos _ (by simp [hy])]
            rfl
          · have hy : ¬ y.name = m := by rw [← h1]; exact hx
            rw [List.find?_cons_of_neg _ (by simp [hx]),
              List.find?_cons_of_neg _ (by simp [hy])]
            exact ih ys h2

/-- Two successive updates of the first feature of the same name compose. -/
theorem updateFirstFeature_comp (fs : List Feature) (n : String)
    (f g : Feature → Feature) (hf : ∀ ft, (f ft).name = ft.name) :
    updateFirstFeature (updateFirstFeature fs n f) n g =
      updateFirstFeature fs n (fun x => g (f x)) := by
  induction fs with
  | nil => rfl
  | cons x xs ih =>
      by_cases hx : x.name = n
      · simp [updateFirstFeature, hx, hf]
      · simp [updateFirstFeature, hx, ih]

/-- Name-preserving updates of the first features of two distinct names
commute. -/
theorem updateFirstFeature_comm (fs : List Feature) (n m : String)
    (f g : Feature → Feature) (hnm : n ≠ m)
    (hf : ∀ ft, (f ft).name = ft.name) (hg : ∀ ft, (g ft).name = ft.name) :
    updateFirstFeature (updateFirstFeature fs n f) m g =
      updateFirstFeature (updateFirstFeature fs m g) n f := by
  induction fs with
  | nil => rfl
  | cons x xs ih =>
      by_cases hxn : x.name = n
      · have hxm : ¬ x.name = m := by rw [hxn]; exact hnm
        simp [updateFirstFeature, hxn, hxm, hnm, hnm.symm, hf, hg]
      · by_cases hxm : x.name = m
        · simp [updateFirstFeature, hxn, hxm, hnm, hnm.symm, hf, hg]
        · simp [updateFirstFeature, hxn, hxm, ih]

/-- Appending-if-absent keeps existing members. -/
theorem mem_addEnvStep_of_mem {a : String} {acc : List String} (e : String)
    (h : a ∈ acc) : a ∈ addEnvStep acc e := by
  by_cases he : e ∈ acc
  · simpa [addEnvStep, he] using h
  · simp [addEnvStep, he, h]

/-- Appending-if-absent makes the appended tag a member. -/
theorem mem_addEnvStep_self (acc : List String) (e : String) :
    e ∈ addEnvStep acc e := by
  by_cases he : e ∈ acc
  · simp [addEnvStep, he]
  · simp [addEnvStep, he]

/-- The environment fold keeps existing members. -/
theorem mem_foldl_addEnvStep_of_mem {a : String} (l : List String)
    {acc : List String} (h : a ∈ acc) : a ∈ l.foldl addEnvStep acc := by
  induction l generalizing acc with
  | nil => exact h
  | cons e es ih => exact ih (mem_addEnvStep_of_mem e h)

/-- After the environment fold, every folded tag is a member. -/
theorem mem_foldl_addEnvStep_of_mem_list {a : String} (l : List String)
    (acc : List String) (h : a ∈ l) : a ∈ l.foldl addEnvStep acc := by
  induction l generalizing acc with
  | nil => cases h
  | cons e es ih =>
      rcases List.mem_cons.mp h with rfl | h'
      · exact mem_foldl_addEnvStep_of_mem es (mem_addEnvStep_self acc a)
      · exact ih (addEnvStep acc e) h'

/-- The environment fold is the identity when every tag is already
present. -/
theorem foldl_addEnvStep_eq_of_subset (l : List String) (acc : List String)
    (h : ∀ e ∈ l, e ∈ acc) : l.foldl addEnvStep acc = acc := by
  induction l with
  | nil => rfl
  | cons e es ih =>
      have he : e ∈ acc := h e (List.mem_cons_self _ _)
      simp only [List.foldl_cons]
      rw [show addEnvStep acc e = acc from by simp [addEnvStep, he]]
      exact ih (fun x hx => h x (List.mem_cons_of_mem _ hx))

/-- The environment fold is idempotent. -/
theorem foldl_addEnvStep_idem (l : List String) (acc : List String) :
    l.foldl addEnvStep (l.foldl addEnvStep acc) = l.foldl addEnvStep acc :=
  foldl_addEnvStep_eq_of_subset l _
    (fun _ hx => mem_foldl_addEnvStep_of_mem_list l acc hx)

/-- Appending-if-absent preserves freedom from duplicates. -/
theorem addEnvStep_nodup {acc : List String} (e : String) (h : acc.Nodup) :
    (addEnvStep acc e).Nodup := by
  by_cases he : e ∈ acc
  · simpa [addEnvStep, he] using h
  · simp [addEnvStep, he, List.nodup_append, h]

/-- The environment fold preserves freedom from duplicates. -/
theorem foldl_addEnvStep_nodup (l : List String) (acc : List String)
    (h : acc.Nodup) : (l.foldl addEnvStep acc).Nodup := by
  induction l generalizing acc with
  | nil => exact h
  | cons e es ih => exact ih _ (addEnvStep_nodup e h)

/-- What `customize_schema` computes when the `age` and `label` features
exist: the age feature's domain is overwritten, `TRAINING` and `SERVING`
are folded into the default environments, and the label feature is
excluded from `SERVING`. -/
theorem customize_schema_eq (s : Schema)
    (ha : (s.feature.find? (fun ft => ft.name = "age")).isSome = true)
    (hl : (s.feature.find? (fun ft => ft.name = "label")).isSome = true) :
    customize_schema s = some
      ⟨updateFirstFeature
         (updateFirstFeature s.feature "age"
           (setDomainInfo (DomainInfo.intDomain ⟨"age", 17, 90⟩)))
         "label" excludeServing,
       ["TRAINING", "SERVING"].foldl addEnvStep s.default_environment⟩ := by
  obtain ⟨fta, hfa⟩ := Option.isSome_iff_exists.mp ha
  have hnames : (updateFirstFeature s.feature "age"
      (setDomainInfo (DomainInfo.intDomain ⟨"age", 17, 90⟩))).map
        (fun ft => ft.name) = s.feature.map (fun ft => ft.name) :=
    updateFirstFeature_map_name _ _ _ (fun ft => rfl)
  have hl2 : ((updateFirstFeature s.feature "age"
      (setDomainInfo (DomainInfo.intDomain ⟨"age", 17, 90⟩))).find?
        (fun ft => ft.name = "label")).isSome = true := by
    rw [find?_name_isSome_congr _ s.feature _ hnames]; exact hl
  obtain ⟨ftl, hfl⟩ := Option.isSome_iff_exists.mp hl2
  simp only [customize_schema, customize_age_domain, set_domain, hfa,
    add_environments, configure_serving_environment, add_additional_validations]
  simp only [Option.bind_eq_bind, Option.some_bind]
  rw [hfl]
  rfl

/-- Counterexample for C2 as stated: a schema whose `default_environment`
already holds a duplicate tag keeps it, so applying `add_environments`
twice with the same tag list does not yield a duplicate-free list. -/
theorem add_environments_twice_dup_cex :
    ¬ ((add_environments (add_environments ⟨[], ["TRAINING", "TRAINING"]⟩
        ["TRAINING", "SERVING"]) ["TRAINING", "SERVING"]).default_environment).Nodup := by
  decide

/-- C2 (amended): `customize_schema` is idempotent — if it succeeds once,
applying it to its own result returns that result unchanged; and
`add_environments` applied twice with the same tag list equals one
application, which leaves `default_environment` duplicate-free whenever
it started duplicate-free. -/
theorem customize_schema_idem :
    (∀ s s' : Schema, customize_schema s = some s' →
      customize_schema s' = some s') ∧
    (∀ (s : Schema) (envs : List String),
      add_environments (add_environments s envs) envs = add_environments s envs) ∧
    (∀ (s : Schema) (envs : List String), s.default_environment.Nodup →
      (add_environments (add_environments s envs) envs).default_environment.Nodup) := by
  refine ⟨?_, ?_, ?_⟩
  · intro s s' h
    have ha : (s.feature.find? (fun ft => ft.name = "age")).isSome = true := by
      by_contra hc
      have hn : s.feature.find? (fun ft => ft.name = "age") = none :=
        Option.not_isSome_iff_eq_none.mp (fun hs => hc hs)
      simp [customize_schema, customize_age_domain, set_domain, hn] at h
    have hnames1 : (updateFirstFeature s.feature "age"
        (setDomainInfo (DomainInfo.intDomain ⟨"age", 17, 90⟩))).map
          (fun ft => ft.name) = s.feature.map (fun ft => ft.name) :=
      updateFirstFeature_map_name _ _ _ (fun ft => rfl)
    obtain ⟨fta, hfa⟩ := Option.isSome_iff_exists.mp ha
    have hl : (s.feature.find? (fun ft => ft.name = "label")).isSome = true := by
      by_contra hc
      have hn : ((updateFirstFeature s.feature "age"
          (setDomainInfo (DomainInfo.intDomain ⟨"age", 17, 90⟩))).find?
            (fun ft => ft.name = "label")) = none := by
        apply Option.not_isSome_iff_eq_none.mp
        rw [find?_name_isSome_congr _ s.feature _ hnames1]
        exact fun hs => hc hs
      simp [customize_schema, customize_age_domain, set_domain, hfa,
        add_environments, configure_serving_environment, hn] at h
    rw [customize_schema_eq s ha hl] at h
    have hs' : s' =
        ⟨updateFirstFeature
           (updateFirstFeature s.feature "age"
             (setDomainInfo (DomainInfo.intDomain ⟨"age", 17, 90⟩)))
           "label" excludeServing,
         ["TRAINING", "SERVING"].foldl addEnvStep s.default_environment⟩ := by
      injection h with h; exact h.symm
    subst hs'
    have hnames2 : (updateFirstFeature
        (updateFirstFeature s.feature "age"
          (setDomainInfo (DomainInfo.intDomain ⟨"age", 17, 90⟩)))
        "label" excludeServing).map (fun ft => ft.name) =
          s.feature.map (fun ft => ft.name) := by
      rw [updateFirstFeature_map_name _ _ _ excludeServing_name, hnames1]
    have ha' := ha
    rw [← find?_name_isSome_congr _ s.feature _ hnames2] at ha'
    have hl' := hl
    rw [← find?_name_isSome_congr _ s.feature _ hnames2] at hl'
    rw [customize_schema_eq _ ha' hl']
    simp only [Option.some.injEq, Schema.mk.injEq]
    constructor
    · -- the feature list is already fully edited
      rw [updateFirstFeature_comm _ "label" "age" excludeServing
          (setDomainInfo (DomainInfo.intDomain ⟨"age", 17, 90⟩))
          (by decide) excludeServing_name (fun ft => rfl),
        updateFirstFeature_comp _ "age"
          (setDomainInfo (DomainInfo.intDomain ⟨"age", 17, 90⟩))
          (setDomainInfo (DomainInfo.intDomain ⟨"age", 17, 90⟩)) (fun ft => rfl),
        show (fun x => setDomainInfo (DomainInfo.intDomain ⟨"age", 17, 90⟩)
          (setDomainInfo (DomainInfo.intDomain ⟨"age", 17, 90⟩) x)) =
          setDomainInfo (DomainInfo.intDomain ⟨"age", 17, 90⟩) from
          funext (fun x => rfl),
        updateFirstFeature_comp _ "label" excludeServing excludeServing
          excludeServing_name,
        show (fun x => excludeServing (excludeServing x)) = excludeServing from
          funext excludeServing_idem]
    · exact foldl_addEnvStep_idem _ _
  · intro s envs
    simp only [add_environments]
    rw [foldl_addEnvStep_idem]
  · intro s envs h
    simp only [add_environments]
    exact foldl_addEnvStep_nodup _ _ (foldl_addEnvStep_nodup _ _ h)

/-- Witness for C2 (amended): `customize_schema` applied to its own
output on a two-feature schema returns that output unchanged. -/
theorem customize_schema_idem_witness :
    customize_schema
      ⟨[⟨"age", some (DomainInfo.intDomain ⟨"age", 17, 90⟩), []⟩,
        ⟨"label", none, ["SERVING"]⟩], ["TRAINING", "SERVING"]⟩ =
      some ⟨[⟨"age", some (DomainInfo.intDomain ⟨"age", 17, 90⟩), []⟩,
        ⟨"label", none, ["SERVING"]⟩], ["TRAINING", "SERVING"]⟩ :=
  customize_schema_idem.1 ⟨[⟨"age", none, []⟩, ⟨"label", none, []⟩], []⟩ _
    (by decide)

/-- Scaling into unit `k` is below 1024 exactly when the byte count is
below `1024 ^ (k+1)`. -/
theorem div_pow_lt_iff (n k : ℕ) :
    ((n : ℚ) / 1024 ^ k < 1024) ↔ n < 1024 ^ (k + 1) := by
  rw [div_lt_iff₀ (by positivity)]
  have h : (1024 : ℚ) * 1024 ^ k = ((1024 ^ (k + 1) : ℕ) : ℚ) := by
    push_cast; ring
  rw [h, Nat.cast_lt]

/-- C10: `format_bytes` renders every non-negative byte count by scaling
it into the first unit of B, KB, MB, GB, TB under which it is below 1024,
with one decimal place followed by the unit, and renders 1024 TB and
above in PB — the progressive halving loop agrees with the direct
first-fit scaling. -/
theorem format_bytes_eq_spec (n : ℕ) : format_bytes n = format_bytes_spec n := by
  have d2 : (n : ℚ) / 1024 / 1024 = (n : ℚ) / 1024 ^ 2 := by
    rw [div_div]; norm_num
  have d3 : (n : ℚ) / 1024 / 1024 / 1024 = (n : ℚ) / 1024 ^ 3 := by
    rw [div_div, div_div]; norm_num
  have d4 : (n : ℚ) / 1024 / 1024 / 1024 / 1024 = (n : ℚ) / 1024 ^ 4 := by
    rw [div_div, div_div, div_div]; norm_num
  have d5 : (n : ℚ) / 1024 / 1024 / 1024 / 1024 / 1024 = (n : ℚ) / 1024 ^ 5 := by
    rw [div_div, div_div, div_div, div_div]; norm_num
  have e1 : ((n : ℚ) < 1024) ↔ n < 1024 := by
    norm_cast
  have e2 : ((n : ℚ) / 1024 < 1024) ↔ n < 1024 ^ 2 := by
    simpa using div_pow_lt_iff n 1
  have e3 : ((n : ℚ) / 1024 / 1024 < 1024) ↔ n < 1024 ^ 3 := by
    rw [d2]; exact div_pow_lt_iff n 2
  have e4 : ((n : ℚ) / 1024 / 1024 / 1024 < 1024) ↔ n < 1024 ^ 4 := by
    rw [d3]; exact div_pow_lt_iff n 3
  have e5 : ((n : ℚ) / 1024 / 1024 / 1024 / 1024 < 1024) ↔ n < 1024 ^ 5 := by
    rw [d4]; exact div_pow_lt_iff n 4
  simp only [format_bytes, format_bytes_loop, format_bytes_spec]
  by_cases h1 : n < 1024
  · rw [if_pos (e1.mpr h1), if_pos h1]
  · rw [if_neg (fun hc => h1 (e1.mp hc)), if_neg h1]
    by_cases h2 : n < 1024 ^ 2
    · rw [if_pos (e2.mpr h2), if_pos h2]
    · rw [if_neg (fun hc => h2 (e2.mp hc)), if_neg h2]
      by_cases h3 : n < 1024 ^ 3
      · rw [if_pos (e3.mpr h3), if_pos h3, d2]
      · rw [if_neg (fun hc => h3 (e3.mp hc)), if_neg h3]
        by_cases h4 : n < 1024 ^ 4
        · rw [if_pos (e4.mpr h4), if_pos h4, d3]
        · rw [if_neg (fun hc => h4 (e4.mp hc)), if_neg h4]
          by_cases h5 : n < 1024 ^ 5
          · rw [if_pos (e5.mpr h5), if_pos h5, d4]
          · rw [if_neg (fun hc => h5 (e5.mp hc)), if_neg h5, d5]

end TFXLab
